import Mathlib

/-!
# Resource Admission & Storage Lifecycle core — verification development

Shallow embedding of the two subsystems covered by the specification:
the sliding-window rate limiter (`src/middleware.py`, class `RateLimiter`)
and the date-partitioned artifact store with retention
(`src/services/file_manager.py`, class `FileManager`).

Modelling conventions:
* Wall-clock instants are integers counting seconds (`Int`); a calendar day
  is the floor of the instant divided by 86400 (`dayOf`).  Python's
  `datetime` arithmetic (`timedelta(days=k)`, `.total_seconds()`) maps to
  integer arithmetic on seconds.
* A day-bucket directory name is represented by its day number; a
  subdirectory whose name does not parse as a `YYYY-MM-DD` date is kept
  with its literal name (`FS.otherDirs`).  `datetime.strptime` success on a
  directory name corresponds exactly to membership in `FS.dateDirs`.
* `Path.exists()` during filename resolution is an oracle
  `Int → String → Bool` (bucket day, file name): the operating system's
  answer to probing `base/<day>/<name>`.  For names containing `..` the OS
  may report a file outside the store, which the oracle can express.
* The cleanup log file is `Option (List (Option Int))`: `none` = the file
  does not exist; each line is represented by the timestamp parsed from its
  first " - "-separated field (`some t`), or `none` when the line is blank
  or unparsable (`datetime.fromisoformat` failure).
-/
/-! ## Time model -/
/-- Seconds in a day; `timedelta(days = k)` is `k * 86400` seconds. -/
def secondsPerDay : Int := 86400

/-- Calendar day of an instant (floor division, matching local-midnight
day buckets produced by `strftime("%Y-%m-%d")`). -/
def dayOf (t : Int) : Int := Int.fdiv t secondsPerDay

/-- Midnight instant of a calendar day, the value `datetime.strptime(name,
"%Y-%m-%d")` denotes for the directory named after day `d`. -/
def dayStart (d : Int) : Int := d * secondsPerDay

/-! ## `FileManager.validate_filename` (file_manager.py lines 166-194) -/
/-- The character allow-set of `validate_filename`:
`abcdefghijklmnopqrstuvwxyzABCDEFGHIJKLMNOPQRSTUVWXYZ0123456789_.-`. -/
def allowedChar (c : Char) : Bool :=
  c.isAlpha || c.isDigit || c == '_' || c == '.' || c == '-'

/-- `'..' in filename`: does the character list contain two consecutive
dots? -/
def hasDoubleDot : List Char → Bool
  | c1 :: c2 :: rest => (c1 == '.' && c2 == '.') || hasDoubleDot (c2 :: rest)
  | _ => false

/-- `pathlib.PurePath.suffix` for a plain file name, as a character list:
the substring from the last dot, provided that dot is neither the first
nor the last character; otherwise empty. -/
def pathSuffix (s : String) : List Char :=
  let rev := s.data.reverse
  match rev.findIdx? (fun c => c == '.') with
  | none => []
  | some j => if 0 < j ∧ j < rev.length - 1 then (rev.take (j + 1)).reverse else []

/-- ASCII lower-casing of one character (`str.lower()` on the suffix,
whose characters are drawn from the allow-set, is exactly ASCII). -/
def lowerChar (c : Char) : Char :=
  if 65 ≤ c.toNat ∧ c.toNat ≤ 90 then Char.ofNat (c.toNat + 32) else c

/-- `FileManager.validate_filename`: reject the empty name, names
containing `..`, `/` or `\`, names with characters outside the allow-set,
and names whose (lower-cased) extension is not `.png`, `.jpg` or `.jpeg`. -/
def validate_filename (filename : String) : Bool :=
  if filename.data.isEmpty then false
  else if hasDoubleDot filename.data
      || filename.data.any (fun c => c == '/')
      || filename.data.any (fun c => c == '\\') then false
  else if !(filename.data.all allowedChar) then false
  else
    let ext := (pathSuffix filename).map lowerChar
    ext == ".png".data || ext == ".jpg".data || ext == ".jpeg".data

/-! ## `FileManager.get_file_path` (file_manager.py lines 141-164)

The source performs *no* filename validation here: it probes the
filesystem directly.  `exists?` is the `Path.exists()` oracle; a returned
path is the pair (bucket day, file name). -/
/-- `FileManager.get_file_path`: with a `date` hint, probe only that day's
bucket; otherwise probe the last 7 days (`days_back in range(7)`), newest
first, returning the first name the filesystem reports as existing. -/
def get_file_path (ex : Int → String → Bool) (now : Int) (filename : String)
    (date : Option Int) : Option (Int × String) :=
  match date with
  | some d => if ex (dayOf d) filename then some (dayOf d, filename) else none
  | none =>
      (List.range 7).findSome? (fun i =>
        let b := dayOf (now - (i : Int) * secondsPerDay)
        if ex b filename then some (b, filename) else none)

/-! ## The artifact directory tree

The base directory holds subdirectories; `dateDirs` are those whose name
`datetime.strptime(name, "%Y-%m-%d")` parses (keyed by day number),
`otherDirs` are the rest (keyed by their literal name).  Each directory is
a list of regular files with name, size in bytes and creation time. -/
/-- A regular file inside one subdirectory of the base directory. -/
structure FileEntry where
  name : String
  size : Nat
  ctime : Int
deriving DecidableEq

/-- The base directory tree owned by `FileManager`. -/
structure FS where
  dateDirs : List (Int × List FileEntry)
  otherDirs : List (String × List FileEntry)
deriving DecidableEq

/-- Look up a directory value in a keyed directory list, defaulting to
the empty directory. -/
def dirsFind (l : List (Int × List FileEntry)) (d : Int) : List FileEntry :=
  ((l.find? (fun p => p.1 == d)).map (fun p => p.2)).getD []

/-- Contents of the day-bucket for day `d` (empty if the directory does
not exist). -/
def fsGetDir (fs : FS) (d : Int) : List FileEntry :=
  dirsFind fs.dateDirs d

/-- Size reported by `stat()` for `base/<d>/<name>`, `none` if absent. -/
def fsFileSize (fs : FS) (d : Int) (name : String) : Option Nat :=
  ((fsGetDir fs d).find? (fun f => f.name == name)).map (fun f => f.size)

/-- `Path.exists()` for `base/<d>/<name>` restricted to the store's own
tree (no traversal outside the base directory). -/
def fsExists (fs : FS) (d : Int) (name : String) : Bool :=
  (fsFileSize fs d name).isSome

/-- `open(filepath, 'wb')`: create the file or truncate and overwrite an
existing file of the same name. -/
def upsertFile (files : List FileEntry) (e : FileEntry) : List FileEntry :=
  if files.any (fun f => f.name == e.name) then
    files.map (fun f => if f.name == e.name then e else f)
  else files ++ [e]

/-- Write a file into the day-bucket `d`, creating the directory first if
needed (`ensure_storage_directory`, an idempotent mkdir). -/
def fsPutFile (fs : FS) (d : Int) (e : FileEntry) : FS :=
  if fs.dateDirs.any (fun p => p.1 == d) then
    { fs with dateDirs := fs.dateDirs.map (fun p => if p.1 == d then (p.1, upsertFile p.2 e) else p) }
  else
    { fs with dateDirs := fs.dateDirs ++ [(d, [e])] }

/-! ## `FileManager.save_file` (file_manager.py lines 101-139)

`file_data` is the byte payload (only its content length matters for the
post-write `stat()`).  A real write may fail partway; `WriteOutcome`
injects that possibility: `ok` is a completed `f.write(file_data)`,
`failPartial k` is a write that raised after `k` bytes reached the disk.
Every exception inside `save_file` is re-raised as `RuntimeError`
("File saving failed"), so a failed write yields an error, not a record. -/
/-- Outcome of the `f.write(file_data)` call. -/
inductive WriteOutcome where
  | ok : WriteOutcome
  | failPartial : Nat → WriteOutcome
deriving DecidableEq

/-- The dictionary returned by `save_file` on success: file name, the
day-bucket it was stored in, and the size obtained from the post-write
`filepath.stat().st_size`. -/
structure SaveRecord where
  filename : String
  bucket : Int
  size : Nat
deriving DecidableEq

/-- `FileManager.save_file`: ensure the day-bucket directory for
`date or datetime.now()`, write the payload, then `stat()` the written
file and return a record carrying that size.  A write that raises leaves
no success record (the exception propagates as `RuntimeError`). -/
def save_file (fs : FS) (now : Int) (file_data : List Nat) (filename : String)
    (date : Option Int) (w : WriteOutcome) : Except String SaveRecord × FS :=
  let bucket := dayOf (date.getD now)
  match w with
  | .ok =>
      let fs' := fsPutFile fs bucket ⟨filename, file_data.length, now⟩
      (Except.ok { filename := filename, bucket := bucket, size := file_data.length }, fs')
  | .failPartial k =>
      let fs' := fsPutFile fs bucket ⟨filename, min k file_data.length, now⟩
      (Except.error "File saving failed", fs')

/-! ## `FileManager.list_files` (lines 227-281) and
`FileManager.get_storage_stats` (lines 283-333)

`list_files` filters every file through `validate_filename`;
`get_storage_stats` counts every regular file of every non-`__pycache__`
subdirectory with *no* validation.  Both iterate all subdirectories of the
base directory, date-named or not, skipping only `__pycache__`.
Per-record date labels and the per-date breakdown list are omitted from
the embedding (no claim mentions them); creation-time ordering is kept
because `list_files` sorts by it. -/
/-- The per-directory file lists visited by the enumeration primitives:
every subdirectory except `__pycache__`. -/
def allDirFiles (fs : FS) : List (List FileEntry) :=
  fs.dateDirs.map (fun p => p.2)
    ++ (fs.otherDirs.filter (fun p => !(p.1 == "__pycache__"))).map (fun p => p.2)

/-- One element of the list returned by `list_files`. -/
structure FileRec where
  filename : String
  size : Nat
  created : Int
deriving DecidableEq

/-- `FileManager.list_files`: collect the validated files (of one
day-bucket, or of every subdirectory), sort newest-created first, then
apply `limit` — Python's `if limit:` is falsy for `0`, so a zero limit
means no truncation. -/
def list_files (fs : FS) (date : Option Int) (limit : Option Nat) : List FileRec :=
  let files : List FileRec :=
    match date with
    | some d =>
        ((fsGetDir fs (dayOf d)).filter (fun f => validate_filename f.name)).map
          (fun f => ⟨f.name, f.size, f.ctime⟩)
    | none =>
        ((allDirFiles fs).flatMap (fun l => l.filter (fun f => validate_filename f.name))).map
          (fun f => ⟨f.name, f.size, f.ctime⟩)
  let sorted := files.mergeSort (fun a b => decide (b.created ≤ a.created))
  match limit with
  | none => sorted
  | some n => if n == 0 then sorted else sorted.take n

/-- The aggregate part of the dictionary returned by `get_storage_stats`. -/
structure StorageStats where
  total_files : Nat
  total_size : Nat
deriving DecidableEq

/-- `FileManager.get_storage_stats`: per directory, count files and sum
byte sizes (no filename validation), then accumulate the totals. -/
def get_storage_stats (fs : FS) : StorageStats :=
  { total_files := ((allDirFiles fs).map (fun l => l.length)).sum,
    total_size := ((allDirFiles fs).map (fun l => (l.map (fun f => f.size)).sum)).sum }

/-! ## `FileManager.cleanup_old_files` (lines 335-430), the cleanup log
(lines 432-452, 486-513) and `FileManager.schedule_cleanup` (lines 454-484)

The sweep enumerates candidates only from day-bucket directories whose
name parses as a date (`strptime` failure → `continue`) and whose parsed
midnight lies strictly before `now - max_age_days` days.  When not a dry
run *and* at least one candidate exists, every candidate file is unlinked
(deletions are modelled as all succeeding; the per-file `try/except` only
matters for I/O failures, which no claim quantifies over), and afterwards
*every* empty non-`__pycache__` subdirectory — date-named or not — is
removed.  One line is always appended to the cleanup log, dry run or not.
The whole sweep uses a single `now` (the source calls `datetime.now()`
several times within one sweep; the sub-second drift between those calls
is irrelevant to every claim). -/
/-- The cleanup log file state: `none` = file absent; each line is the
timestamp parsed from its first " - "-separated field, or `none` when the
line is blank or `datetime.fromisoformat` raises. -/
abbrev CleanupLog := Option (List (Option Int))

/-- The dictionary returned by `cleanup_old_files` (fields the claims
mention). -/
structure CleanupResult where
  dry_run : Bool
  files_found : Nat
  files_deleted : Nat
  directories_deleted : Nat
  size_freed : Nat
  potential_size_to_free : Nat
deriving DecidableEq

/-- `dir_date < cutoff_date`: the bucket's midnight is strictly older
than `now - max_age_days` days. -/
def oldDir (now maxAgeDays d : Int) : Bool :=
  decide (dayStart d < now - maxAgeDays * secondsPerDay)

/-- The `files_to_delete` list: every file of every old-enough day-bucket,
tagged with its bucket day.  Non-date directories never contribute
(`strptime` raises and the directory is skipped). -/
def cleanupCandidates (fs : FS) (now maxAgeDays : Int) : List (Int × FileEntry) :=
  (fs.dateDirs.filter (fun p => oldDir now maxAgeDays p.1)).flatMap
    (fun p => p.2.map (fun f => (p.1, f)))

/-- Day-bucket list after the deletion loop: old buckets are emptied. -/
def cleanupEmptied (fs : FS) (now maxAgeDays : Int) : List (Int × List FileEntry) :=
  fs.dateDirs.map (fun p => if oldDir now maxAgeDays p.1 then (p.1, ([] : List FileEntry)) else p)

/-- `_log_cleanup_results`: append one line whose first field is the
current timestamp (creating the file on first use). -/
def logAppend (log : CleanupLog) (t : Int) : CleanupLog :=
  some ((log.getD []) ++ [some t])

/-- `FileManager.cleanup_old_files`: enumerate candidates; when not a dry
run and candidates exist, delete them and then remove every empty
non-`__pycache__` subdirectory; always append one log line. -/
def cleanup_old_files (fs : FS) (log : CleanupLog) (now maxAgeDays : Int)
    (dry_run : Bool) : CleanupResult × FS × CleanupLog :=
  let files_to_delete := cleanupCandidates fs now maxAgeDays
  let total_size_to_free := (files_to_delete.map (fun q => q.2.size)).sum
  let doDelete := !dry_run && !files_to_delete.isEmpty
  let fs' : FS :=
    if doDelete then
      { dateDirs := (cleanupEmptied fs now maxAgeDays).filter (fun p => !p.2.isEmpty),
        otherDirs := fs.otherDirs.filter (fun p => p.1 == "__pycache__" || !p.2.isEmpty) }
    else fs
  let dirs_deleted :=
    if doDelete then
      (cleanupEmptied fs now maxAgeDays).countP (fun p => p.2.isEmpty)
        + fs.otherDirs.countP (fun p => !(p.1 == "__pycache__") && p.2.isEmpty)
    else 0
  let result : CleanupResult :=
    { dry_run := dry_run,
      files_found := files_to_delete.length,
      files_deleted := if doDelete then files_to_delete.length else 0,
      directories_deleted := dirs_deleted,
      size_freed := if doDelete then total_size_to_free else 0,
      potential_size_to_free := total_size_to_free }
  (result, fs', logAppend log now)

/-- `FileManager._get_last_cleanup_time`: `None` when the log file is
absent or empty; otherwise the parse result of the last line (`None` when
that line is blank or unparsable). -/
def get_last_cleanup_time (log : CleanupLog) : Option Int :=
  match log with
  | none => none
  | some lines =>
      match lines.getLast? with
      | none => none
      | some parsed => parsed

/-- Result of `schedule_cleanup`: either a real (non-dry-run) cleanup was
performed, or nothing was done and the seconds until the next eligible
run are reported. -/
inductive ScheduleResult where
  | performed : CleanupResult × FS × CleanupLog → ScheduleResult
  | skipped : Int → ScheduleResult
deriving DecidableEq

/-- `FileManager.schedule_cleanup`: perform a real cleanup when forced,
when no prior cleanup time can be read, or when more than 86400 seconds
have elapsed since it; otherwise report the remaining seconds. -/
def schedule_cleanup (fs : FS) (log : CleanupLog) (now maxAgeDays : Int)
    (force : Bool) : ScheduleResult :=
  match get_last_cleanup_time log with
  | none => ScheduleResult.performed (cleanup_old_files fs log now maxAgeDays false)
  | some t =>
      if force || decide (86400 < now - t) then
        ScheduleResult.performed (cleanup_old_files fs log now maxAgeDays false)
      else
        ScheduleResult.skipped (86400 - (now - t))

/-! ## `RateLimiter` (middleware.py lines 16-122)

Per-fingerprint sliding windows.  The two timestamp maps are
`defaultdict(deque)`; a map is embedded as a total function
`String → List Int` whose default value is the empty list (an absent key
and an empty deque are observationally identical — every read goes
through the defaulting access).  Timestamps are integer seconds.  The
fingerprint (`_get_client_id`, an HTTP-request concern) is passed in as
the string `c`. -/
/-- Rate limiter state. -/
structure RL where
  requests_per_minute : Nat
  requests_per_hour : Nat
  minute_requests : String → List Int
  hour_requests : String → List Int
  last_cleanup : Int

/-- Point update of a timestamp map. -/
def overrideMap (m : String → List Int) (k : String) (v : List Int) : String → List Int :=
  fun x => if x = k then v else m x

/-- `requests[0] < cutoff`: the head timestamp has left the window. -/
def expired (cutoff t : Int) : Bool := decide (t < cutoff)

/-- `RateLimiter._cleanup_old_requests`: every 300 seconds, trim the
expired prefix of every client's deque in both maps (an entry emptied by
the trim is deleted from the map, which under the defaulting access is
the same as holding `[]`). -/
def cleanup_old_requests (rl : RL) (now : Int) : RL :=
  if now - rl.last_cleanup < 300 then rl
  else
    { rl with
      minute_requests := fun x => (rl.minute_requests x).dropWhile (expired (now - 60)),
      hour_requests := fun x => (rl.hour_requests x).dropWhile (expired (now - 3600)),
      last_cleanup := now }

/-- The client's minute deque after the periodic sweep and the explicit
`while ... popleft()` prefix trim of `is_allowed`. -/
def minuteTrimmed (rl : RL) (c : String) (now : Int) : List Int :=
  ((cleanup_old_requests rl now).minute_requests c).dropWhile (expired (now - 60))

/-- The client's hour deque after the periodic sweep and the explicit
prefix trim (the minute-window mutation does not touch the hour map). -/
def hourTrimmed (rl : RL) (c : String) (now : Int) : List Int :=
  ((cleanup_old_requests rl now).hour_requests c).dropWhile (expired (now - 3600))

/-- State after the minute-window prefix trim has been written back. -/
def afterMinuteTrim (rl : RL) (c : String) (now : Int) : RL :=
  { cleanup_old_requests rl now with
    minute_requests :=
      overrideMap (cleanup_old_requests rl now).minute_requests c (minuteTrimmed rl c now) }

/-- State after both prefix trims have been written back. -/
def afterHourTrim (rl : RL) (c : String) (now : Int) : RL :=
  { afterMinuteTrim rl c now with
    hour_requests :=
      overrideMap (afterMinuteTrim rl c now).hour_requests c (hourTrimmed rl c now) }

/-- State after an admitted request: `now` is appended to both deques. -/
def afterAdmit (rl : RL) (c : String) (now : Int) : RL :=
  { afterHourTrim rl c now with
    minute_requests :=
      overrideMap (afterHourTrim rl c now).minute_requests c (minuteTrimmed rl c now ++ [now]),
    hour_requests :=
      overrideMap (afterHourTrim rl c now).hour_requests c (hourTrimmed rl c now ++ [now]) }

/-- `RateLimiter.is_allowed` for fingerprint `c` at instant `now`: run the
periodic sweep, trim the minute window and deny (`"Too many requests per
minute"`) if it is full, else trim the hour window and deny (`"Too many
requests per hour"`) if it is full, else record the request in both
windows and admit. -/
def is_allowed (rl : RL) (c : String) (now : Int) : (Bool × Option String) × RL :=
  if rl.requests_per_minute ≤ (minuteTrimmed rl c now).length then
    ((false, some "Too many requests per minute"), afterMinuteTrim rl c now)
  else if rl.requests_per_hour ≤ (hourTrimmed rl c now).length then
    ((false, some "Too many requests per hour"), afterHourTrim rl c now)
  else
    ((true, none), afterAdmit rl c now)

/-- A freshly constructed `RateLimiter` (empty maps) whose
`last_cleanup` was taken at instant `t`. -/
def freshRL (m h : Nat) (t : Int) : RL :=
  { requests_per_minute := m, requests_per_hour := h,
    minute_requests := fun _ => [], hour_requests := fun _ => [],
    last_cleanup := t }

/-- Run a sequence of `is_allowed` calls for one fingerprint, keeping the
final state. -/
def runAll (rl : RL) (c : String) (ts : List Int) : RL :=
  ts.foldl (fun s t => (is_allowed s c t).2) rl

/-! ## Theorems -/

/-- C1: the spec requires `get_file_path` to apply `validate_filename`
before any filesystem access and to return `None` for every rejected name.
The code contains no such check: with a filesystem in which the probe for
`../../etc/passwd` under a recent day-bucket succeeds (i.e. the traversal
target exists), `get_file_path` returns that path even though
`validate_filename` rejects the name. -/
theorem c1_resolve_skips_validation :
    validate_filename "../../etc/passwd" = false ∧
    get_file_path (fun _ n => n == "../../etc/passwd") 0 "../../etc/passwd" none
      = some (0, "../../etc/passwd") := by
  refine ⟨by decide, ?_⟩
  rfl

theorem find?_upsertFile (files : List FileEntry) (e : FileEntry) :
    (upsertFile files e).find? (fun f => f.name == e.name) = some e := by
  unfold upsertFile
  split
  case isTrue h =>
    induction files with
    | nil => simp at h
    | cons a l ih =>
      by_cases ha : a.name == e.name
      · simp [List.find?, ha]
      · simp only [List.map_cons, List.find?, ha, if_neg, Bool.false_eq_true, not_false_iff]
        simp only [List.any_cons, ha, Bool.false_or] at h
        simpa [ha] using ih h
  case isFalse h =>
    induction files with
    | nil => simp [List.find?]
    | cons a l ih =>
      simp only [List.any_cons, Bool.or_eq_true, not_or] at h
      have ha : (a.name == e.name) = false := by
        cases hb : a.name == e.name
        · rfl
        · exact absurd hb h.1
      simp only [List.cons_append, List.find?, ha]
      exact ih (by simpa using h.2)

theorem dirsFind_cons_eq {p : Int × List FileEntry} {l : List (Int × List FileEntry)}
    {d : Int} (h : (p.1 == d) = true) : dirsFind (p :: l) d = p.2 := by
  unfold dirsFind
  rw [List.find?_cons_of_pos _ (by simpa using h)]
  rfl

theorem dirsFind_cons_ne {p : Int × List FileEntry} {l : List (Int × List FileEntry)}
    {d : Int} (h : (p.1 == d) = false) : dirsFind (p :: l) d = dirsFind l d := by
  unfold dirsFind
  rw [List.find?_cons_of_neg _ (by simp [h])]

theorem dirsFind_eq_nil_of_not_any (l : List (Int × List FileEntry)) (d : Int)
    (h : l.any (fun p => p.1 == d) = false) : dirsFind l d = [] := by
  induction l with
  | nil => rfl
  | cons p l ih =>
    simp only [List.any_cons, Bool.or_eq_false_iff] at h
    rw [dirsFind_cons_ne h.1]
    exact ih h.2

theorem dirsFind_update_same (l : List (Int × List FileEntry)) (d : Int) (e : FileEntry)
    (h : l.any (fun p => p.1 == d) = true) :
    dirsFind (l.map (fun p => if p.1 == d then (p.1, upsertFile p.2 e) else p)) d
      = upsertFile (dirsFind l d) e := by
  induction l with
  | nil => simp at h
  | cons p l ih =>
    by_cases hp : (p.1 == d) = true
    · rw [List.map_cons, if_pos hp, dirsFind_cons_eq hp, dirsFind_cons_eq (p := (p.1, upsertFile p.2 e)) hp]
    · have hp' : (p.1 == d) = false := by simpa using hp
      rw [List.map_cons, if_neg (by simp [hp']), dirsFind_cons_ne hp', dirsFind_cons_ne hp']
      exact ih (by simpa [hp'] using h)

theorem dirsFind_update_other (l : List (Int × List FileEntry)) (d d' : Int) (e : FileEntry)
    (hne : d' ≠ d) :
    dirsFind (l.map (fun p => if p.1 == d then (p.1, upsertFile p.2 e) else p)) d'
      = dirsFind l d' := by
  induction l with
  | nil => rfl
  | cons p l ih =>
    by_cases hq : (p.1 == d') = true
    · have hp' : (p.1 == d) = false := by
        cases hb : p.1 == d
        · rfl
        · exact absurd ((beq_iff_eq.mp hq).symm.trans (beq_iff_eq.mp hb)) hne
      rw [List.map_cons, if_neg (by simp [hp']), dirsFind_cons_eq hq, dirsFind_cons_eq hq]
    · have hq' : (p.1 == d') = false := by simpa using hq
      by_cases hp : (p.1 == d) = true
      · rw [List.map_cons, if_pos hp, dirsFind_cons_ne (p := (p.1, upsertFile p.2 e)) hq', dirsFind_cons_ne hq']
        exact ih
      · rw [List.map_cons, if_neg (by simpa using hp), dirsFind_cons_ne hq', dirsFind_cons_ne hq']
        exact ih

theorem dirsFind_append_same (l : List (Int × List FileEntry)) (d : Int) (e : FileEntry)
    (h : l.any (fun p => p.1 == d) = false) :
    dirsFind (l ++ [(d, [e])]) d = [e] := by
  induction l with
  | nil => exact dirsFind_cons_eq (by simp)
  | cons p l ih =>
    simp only [List.any_cons, Bool.or_eq_false_iff] at h
    rw [List.cons_append, dirsFind_cons_ne h.1]
    exact ih h.2

theorem dirsFind_append_other (l : List (Int × List FileEntry)) (d d' : Int) (e : FileEntry)
    (hne : d' ≠ d) :
    dirsFind (l ++ [(d, [e])]) d' = dirsFind l d' := by
  induction l with
  | nil =>
    have hd : ((d, [e]).1 == d') = false := by
      cases hb : (d : Int) == d'
      · rfl
      · exact absurd (beq_iff_eq.mp hb).symm hne
    exact (dirsFind_cons_ne hd).trans rfl
  | cons p l ih =>
    by_cases hq : (p.1 == d') = true
    · rw [List.cons_append, dirsFind_cons_eq hq, dirsFind_cons_eq hq]
    · have hq' : (p.1 == d') = false := by simpa using hq
      rw [List.cons_append, dirsFind_cons_ne hq', dirsFind_cons_ne hq']
      exact ih

theorem fsGetDir_putFile_same (fs : FS) (d : Int) (e : FileEntry) :
    fsGetDir (fsPutFile fs d e) d = upsertFile (fsGetDir fs d) e := by
  unfold fsPutFile
  by_cases h : fs.dateDirs.any (fun p => p.1 == d) = true
  · rw [if_pos h]
    exact dirsFind_update_same _ _ _ h
  · have h' : fs.dateDirs.any (fun p => p.1 == d) = false := by
      cases hb : fs.dateDirs.any (fun p => p.1 == d)
      · rfl
      · exact absurd hb h
    rw [if_neg (by simp [h'])]
    show dirsFind (fs.dateDirs ++ [(d, [e])]) d = _
    rw [dirsFind_append_same _ _ _ h']
    show _ = upsertFile (dirsFind fs.dateDirs d) e
    rw [dirsFind_eq_nil_of_not_any _ _ h']
    rfl

theorem fsGetDir_putFile_other (fs : FS) (d d' : Int) (e : FileEntry) (hne : d' ≠ d) :
    fsGetDir (fsPutFile fs d e) d' = fsGetDir fs d' := by
  unfold fsPutFile
  by_cases h : fs.dateDirs.any (fun p => p.1 == d) = true
  · rw [if_pos h]
    exact dirsFind_update_other _ _ _ _ hne
  · rw [if_neg h]
    exact dirsFind_append_other _ _ _ _ hne

theorem fsExists_putFile_same (fs : FS) (d : Int) (e : FileEntry) :
    fsExists (fsPutFile fs d e) d e.name = true := by
  unfold fsExists fsFileSize
  rw [fsGetDir_putFile_same, find?_upsertFile]
  rfl

theorem fsExists_putFile_other (fs : FS) (d d' : Int) (e : FileEntry) (name : String)
    (hne : d' ≠ d) :
    fsExists (fsPutFile fs d e) d' name = fsExists fs d' name := by
  unfold fsExists fsFileSize
  rw [fsGetDir_putFile_other fs d d' e hne]

/-- C3 counterexample: the claim says a returned record's size "is
non-zero".  `save_file` performs no such check: saving an empty payload
completes and hands the caller a success record whose `size` field is `0`
(the honest post-write stat of the empty file). -/
theorem c3_counterexample_zero_size_record :
    (save_file ⟨[], []⟩ 0 [] "x.png" none WriteOutcome.ok).1
      = Except.ok { filename := "x.png", bucket := 0, size := 0 } := by
  rfl

/-- C3 (amended): a success record is returned exactly for a completed
write; its `size` field is the post-write stat of the written file (the
payload length, which is zero for an empty payload — no non-zero
verification is performed); a write that fails partway yields an error and
never a success record. -/
theorem c3_save_success_iff_write_completed (fs : FS) (now : Int) (file_data : List Nat)
    (filename : String) (date : Option Int) (w : WriteOutcome) :
    (∀ r : SaveRecord, (save_file fs now file_data filename date w).1 = Except.ok r →
      w = WriteOutcome.ok ∧ r.size = file_data.length ∧
      fsFileSize (save_file fs now file_data filename date w).2 (dayOf (date.getD now)) filename
        = some file_data.length) ∧
    (∀ k, w = WriteOutcome.failPartial k →
      (save_file fs now file_data filename date w).1 = Except.error "File saving failed") := by
  constructor
  · intro r hr
    cases w with
    | ok =>
      refine ⟨rfl, ?_, ?_⟩
      · have : r = { filename := filename, bucket := dayOf (date.getD now), size := file_data.length } := by
          simpa [save_file] using hr.symm
        rw [this]
      · show fsFileSize (fsPutFile fs (dayOf (date.getD now)) ⟨filename, file_data.length, now⟩) _ _ = _
        unfold fsFileSize
        rw [fsGetDir_putFile_same]
        have h2 := find?_upsertFile (fsGetDir fs (dayOf (date.getD now)))
          ⟨filename, file_data.length, now⟩
        simp only at h2
        rw [h2]
        rfl
    | failPartial k => simp [save_file] at hr
  · intro k hk
    subst hk
    rfl

theorem dayOf_sub_days (t i : Int) : dayOf (t - i * secondsPerDay) = dayOf t - i := by
  unfold dayOf secondsPerDay
  rw [Int.fdiv_eq_ediv _ (by decide), Int.fdiv_eq_ediv _ (by decide)]
  have h : t - i * 86400 = t + (-i) * 86400 := by ring
  rw [h, Int.add_mul_ediv_right _ _ (by decide)]
  ring

theorem findSome?_range_first {α : Type} (n : Nat) (g : Nat → Bool) (v : Nat → α) (j : Nat)
    (hj : j < n) (hg : g j = true) (hlt : ∀ i, i < j → g i = false) :
    (List.range n).findSome? (fun i => if g i then some (v i) else none) = some (v j) := by
  induction n with
  | zero => omega
  | succ n ih =>
    rw [List.range_succ, List.findSome?_append]
    by_cases hjn : j < n
    · rw [ih hjn]
      rfl
    · have hje : n = j := by omega
      subst hje
      have hnone : (List.range n).findSome? (fun i => if g i then some (v i) else none) = none := by
        rw [List.findSome?_eq_none_iff]
        intro i hi
        rw [List.mem_range] at hi
        simp [hlt i hi]
      rw [hnone, Option.none_or, List.findSome?_cons_of_isSome _ (by simp [hg])]
      simp [hg]

theorem findSome?_range_none {α : Type} (n : Nat) (g : Nat → Bool) (v : Nat → α)
    (h : ∀ i, i < n → g i = false) :
    (List.range n).findSome? (fun i => if g i then some (v i) else none) = none := by
  rw [List.findSome?_eq_none_iff]
  intro i hi
  rw [List.mem_range] at hi
  simp [h i hi]

/-- C8: an artifact saved by `save_file` on calendar day `D` (no explicit
date, so the bucket is the day of the save instant) is found by
`get_file_path` with no date hint — which probes exactly the 7 most recent
day-buckets, newest first — at any later instant whose day is `D + k` with
`k ≤ 6`, returning the identical bucket/name path; once `k ≥ 7` the
bucket has left the search window and the lookup returns not-found
(assuming no other bucket holds a file of the same name and no intervening
cleanup). -/
theorem c8_resolve_window_after_save (fs : FS) (tsave tres : Int) (file_data : List Nat)
    (filename : String) (k : Nat)
    (hk : dayOf tres = dayOf tsave + k)
    (hfresh : ∀ d : Int, d ≠ dayOf tsave → fsExists fs d filename = false) :
    (k ≤ 6 →
      get_file_path (fsExists (save_file fs tsave file_data filename none WriteOutcome.ok).2)
        tres filename none = some (dayOf tsave, filename)) ∧
    (7 ≤ k →
      get_file_path (fsExists (save_file fs tsave file_data filename none WriteOutcome.ok).2)
        tres filename none = none) := by
  have hD : ∀ i : Nat, dayOf (tres - (i : Int) * secondsPerDay) = dayOf tsave + k - i := by
    intro i
    rw [dayOf_sub_days, hk]
  have hsame : fsExists (save_file fs tsave file_data filename none WriteOutcome.ok).2
      (dayOf tsave) filename = true := by
    show fsExists (fsPutFile fs (dayOf tsave) ⟨filename, file_data.length, tsave⟩)
      (dayOf tsave) filename = true
    exact fsExists_putFile_same fs (dayOf tsave) ⟨filename, file_data.length, tsave⟩
  have hother : ∀ d : Int, d ≠ dayOf tsave →
      fsExists (save_file fs tsave file_data filename none WriteOutcome.ok).2 d filename = false := by
    intro d hd
    show fsExists (fsPutFile fs (dayOf tsave) ⟨filename, file_data.length, tsave⟩) d filename = false
    rw [fsExists_putFile_other fs (dayOf tsave) d ⟨filename, file_data.length, tsave⟩ filename hd]
    exact hfresh d hd
  constructor
  · intro hk6
    have hg : fsExists (save_file fs tsave file_data filename none WriteOutcome.ok).2
        (dayOf (tres - (k : Int) * secondsPerDay)) filename = true := by
      rw [hD k]
      have e : dayOf tsave + (k : Int) - (k : Int) = dayOf tsave := by ring
      rw [e]
      exact hsame
    have hlt : ∀ i : Nat, i < k →
        fsExists (save_file fs tsave file_data filename none WriteOutcome.ok).2
          (dayOf (tres - (i : Int) * secondsPerDay)) filename = false := by
      intro i hik
      rw [hD i]
      exact hother _ (by omega)
    have happ := findSome?_range_first 7
      (fun i => fsExists (save_file fs tsave file_data filename none WriteOutcome.ok).2
        (dayOf (tres - (i : Int) * secondsPerDay)) filename)
      (fun i => (dayOf (tres - (i : Int) * secondsPerDay), filename))
      k (by omega) hg hlt
    have e : dayOf (tres - (k : Int) * secondsPerDay) = dayOf tsave := by
      rw [hD k]
      ring
    exact happ.trans (by simp only [e])
  · intro hk7
    have hall : ∀ i : Nat, i < 7 →
        fsExists (save_file fs tsave file_data filename none WriteOutcome.ok).2
          (dayOf (tres - (i : Int) * secondsPerDay)) filename = false := by
      intro i hi
      rw [hD i]
      exact hother _ (by omega)
    exact findSome?_range_none 7
      (fun i => fsExists (save_file fs tsave file_data filename none WriteOutcome.ok).2
        (dayOf (tres - (i : Int) * secondsPerDay)) filename)
      (fun i => (dayOf (tres - (i : Int) * secondsPerDay), filename))
      hall

/-- Witness for C8 at a concrete input: save on day 0, resolve the same
day and six days later succeeds with the identical path; resolve seven
days later fails. -/
theorem c8_resolve_window_after_save_witness :
    get_file_path (fsExists (save_file ⟨[], []⟩ 0 [1] "x.png" none WriteOutcome.ok).2)
        (6 * 86400) "x.png" none = some (0, "x.png") ∧
    get_file_path (fsExists (save_file ⟨[], []⟩ 0 [1] "x.png" none WriteOutcome.ok).2)
        (7 * 86400) "x.png" none = none := by
  constructor
  · exact (c8_resolve_window_after_save ⟨[], []⟩ 0 (6 * 86400) [1] "x.png" 6
      (by decide) (fun d _ => rfl)).1 (by decide)
  · exact (c8_resolve_window_after_save ⟨[], []⟩ 0 (7 * 86400) [1] "x.png" 7
      (by decide) (fun d _ => rfl)).2 (by decide)

/-- Witness for the C3 amended theorem at a concrete input. -/
theorem c3_save_success_iff_write_completed_witness :
    (save_file ⟨[], []⟩ 5 [7, 7, 7] "a.png" none WriteOutcome.ok).1
        = Except.ok { filename := "a.png", bucket := 0, size := 3 } ∧
    ((WriteOutcome.ok : WriteOutcome) = WriteOutcome.ok ∧
      (3 : Nat) = ([7, 7, 7] : List Nat).length ∧
      fsFileSize (save_file ⟨[], []⟩ 5 [7, 7, 7] "a.png" none WriteOutcome.ok).2 (dayOf 5) "a.png"
        = some 3) ∧
    (save_file ⟨[], []⟩ 5 [7, 7, 7] "a.png" none (WriteOutcome.failPartial 1)).1
        = Except.error "File saving failed" := by
  refine ⟨by rfl, ?_, ?_⟩
  · exact (c3_save_success_iff_write_completed ⟨[], []⟩ 5 [7, 7, 7] "a.png" none
      WriteOutcome.ok).1 { filename := "a.png", bucket := 0, size := 3 } (by rfl)
  · exact (c3_save_success_iff_write_completed ⟨[], []⟩ 5 [7, 7, 7] "a.png" none
      (WriteOutcome.failPartial 1)).2 1 rfl

/-- C5 counterexample: the claim says *every* enumeration primitive
applies `validate_filename`, so an invalid-named file contributes to no
file count and no byte total.  `get_storage_stats` never validates: a
lone `evil.exe` in a day-bucket is counted in both totals. -/
theorem c5_counterexample_stats_counts_invalid :
    validate_filename "evil.exe" = false ∧
    get_storage_stats ⟨[(0, [⟨"evil.exe", 7, 0⟩])], []⟩
      = { total_files := 1, total_size := 7 } := by
  exact ⟨by decide, by rfl⟩

/-- C5 (amended): `list_files` does apply `validate_filename` before
including a file, so invalid names appear in no listing; but
`get_storage_stats` performs no validation and counts every regular file
in every non-`__pycache__` subdirectory, valid-named or not. -/
theorem c5_enumeration_validation (fs : FS) (date : Option Int) (limit : Option Nat) :
    (∀ r ∈ list_files fs date limit, validate_filename r.filename = true) ∧
    (get_storage_stats fs).total_files = (allDirFiles fs).flatten.length ∧
    (get_storage_stats fs).total_size = (((allDirFiles fs).flatten).map (fun f => f.size)).sum := by
  refine ⟨?_, ?_, ?_⟩
  · intro r hr
    have hmem : r ∈ (match date with
      | some d =>
          ((fsGetDir fs (dayOf d)).filter (fun f : FileEntry => validate_filename f.name)).map
            (fun f : FileEntry => (⟨f.name, f.size, f.ctime⟩ : FileRec))
      | none =>
          ((allDirFiles fs).flatMap
            (fun l => l.filter (fun f : FileEntry => validate_filename f.name))).map
            (fun f : FileEntry => (⟨f.name, f.size, f.ctime⟩ : FileRec))) := by
      unfold list_files at hr
      have hr2 := hr
      revert hr2
      match limit with
      | none => exact fun hr2 => List.mem_mergeSort.mp hr2
      | some n =>
        by_cases hn : (n == 0) = true
        · simp only [hn, if_pos]
          exact fun hr2 => List.mem_mergeSort.mp hr2
        · simp only [hn]
          intro hr2
          exact List.mem_mergeSort.mp ((List.take_sublist _ _).subset hr2)
    cases date with
    | some d =>
      simp only [List.mem_map, List.mem_filter] at hmem
      obtain ⟨f, ⟨_, hv⟩, hf⟩ := hmem
      rw [← hf]
      exact hv
    | none =>
      simp only [List.mem_map, List.mem_flatMap, List.mem_filter] at hmem
      obtain ⟨f, ⟨_, _, _, hv⟩, hf⟩ := hmem
      rw [← hf]
      exact hv
  · rw [List.length_flatten]
    rfl
  · rw [List.map_flatten, List.sum_flatten, List.map_map]
    rfl

/-- Witness for the C5 amended theorem at a concrete input. -/
theorem c5_enumeration_validation_witness :
    (∀ r ∈ list_files ⟨[(0, [⟨"evil.exe", 7, 0⟩, ⟨"a.png", 3, 1⟩])], []⟩ none none,
      validate_filename r.filename = true) ∧
    (get_storage_stats ⟨[(0, [⟨"evil.exe", 7, 0⟩, ⟨"a.png", 3, 1⟩])], []⟩).total_files = 2 := by
  constructor
  · exact (c5_enumeration_validation ⟨[(0, [⟨"evil.exe", 7, 0⟩, ⟨"a.png", 3, 1⟩])], []⟩
      none none).1
  · rfl

/-- C2 counterexample: the claim says a non-date subdirectory is never
deleted by the sweep.  The empty-directory pruning pass of a real sweep
checks only emptiness and `__pycache__`, not the name: an empty `misc`
directory is removed (and counted in `directories_deleted`) whenever at
least one candidate file was deleted. -/
theorem c2_counterexample_empty_nondate_dir_removed :
    (cleanup_old_files ⟨[(0, [⟨"a.png", 5, 0⟩])], [("misc", [])]⟩ none
        (100 * 86400) 30 false).2.1.otherDirs = [] ∧
    (cleanup_old_files ⟨[(0, [⟨"a.png", 5, 0⟩])], [("misc", [])]⟩ none
        (100 * 86400) 30 false).1.directories_deleted = 2 := by
  exact ⟨rfl, rfl⟩

theorem cleanup_otherDirs_cases (fs : FS) (log : CleanupLog) (now maxAgeDays : Int)
    (dryRun : Bool) :
    (cleanup_old_files fs log now maxAgeDays dryRun).2.1.otherDirs = fs.otherDirs ∨
    (cleanup_old_files fs log now maxAgeDays dryRun).2.1.otherDirs
      = fs.otherDirs.filter (fun p => p.1 == "__pycache__" || !p.2.isEmpty) := by
  cases hd : (!dryRun && !(cleanupCandidates fs now maxAgeDays).isEmpty) with
  | false =>
    left
    simp [cleanup_old_files, hd]
  | true =>
    right
    simp [cleanup_old_files, hd]

/-- C2 (amended): files of a non-date subdirectory are never deletion
candidates (candidates come only from date-parsed buckets, so the
potential bytes to free are bounded by the date-bucket bytes), and a
*nonempty* non-date subdirectory survives every sweep with its contents
intact; an *empty* non-date subdirectory other than `__pycache__` may
however be removed by the empty-directory pruning of a real sweep. -/
theorem c2_nondate_dirs_protected (fs : FS) (log : CleanupLog) (now maxAgeDays : Int)
    (dryRun : Bool) :
    (∀ n : String, ∀ files : List FileEntry, (n, files) ∈ fs.otherDirs → files ≠ [] →
      (n, files) ∈ (cleanup_old_files fs log now maxAgeDays dryRun).2.1.otherDirs) ∧
    (cleanup_old_files fs log now maxAgeDays dryRun).1.potential_size_to_free
      ≤ ((fs.dateDirs.map (fun p => (p.2.map (fun f => f.size)).sum)).sum) := by
  constructor
  · intro n files hmem hne
    rcases cleanup_otherDirs_cases fs log now maxAgeDays dryRun with hcase | hcase
    · rw [hcase]
      exact hmem
    · rw [hcase]
      refine List.mem_filter.mpr ⟨hmem, ?_⟩
      cases files with
      | nil => exact absurd rfl hne
      | cons a l => simp
  · have hpot : (cleanup_old_files fs log now maxAgeDays dryRun).1.potential_size_to_free
        = ((cleanupCandidates fs now maxAgeDays).map (fun q => q.2.size)).sum := rfl
    rw [hpot]
    have heq : ((cleanupCandidates fs now maxAgeDays).map (fun q => q.2.size)).sum
        = (((fs.dateDirs.filter (fun p => oldDir now maxAgeDays p.1)).map
            (fun p => (p.2.map (fun f => f.size)).sum)).sum) := by
      unfold cleanupCandidates
      rw [List.flatMap, List.map_flatten, List.sum_flatten, List.map_map, List.map_map]
      refine congrArg List.sum (List.map_congr_left ?_)
      intro p _
      show (List.map (fun q => q.2.size) (List.map (fun f => ((p.1, f) : Int × FileEntry)) p.2)).sum
        = (List.map (fun f => f.size) p.2).sum
      rw [List.map_map]
      rfl
    rw [heq]
    refine List.Sublist.sum_le_sum ?_ ?_
    · exact (List.filter_sublist _).map _
    · intro a _
      exact Nat.zero_le a

/-- Witness for the C2 amended theorem at a concrete input. -/
theorem c2_nondate_dirs_protected_witness :
    ("keep", [⟨"log.txt", 1, 0⟩]) ∈ (cleanup_old_files
        ⟨[(0, [⟨"a.png", 5, 0⟩])], [("keep", [⟨"log.txt", 1, 0⟩])]⟩ none
        (100 * 86400) 30 false).2.1.otherDirs ∧
    (cleanup_old_files ⟨[(0, [⟨"a.png", 5, 0⟩])], [("keep", [⟨"log.txt", 1, 0⟩])]⟩ none
        (100 * 86400) 30 false).1.potential_size_to_free ≤ 5 := by
  constructor
  · exact (c2_nondate_dirs_protected
      ⟨[(0, [⟨"a.png", 5, 0⟩])], [("keep", [⟨"log.txt", 1, 0⟩])]⟩ none
      (100 * 86400) 30 false).1 "keep" [⟨"log.txt", 1, 0⟩] (by simp) (by simp)
  · exact (c2_nondate_dirs_protected
      ⟨[(0, [⟨"a.png", 5, 0⟩])], [("keep", [⟨"log.txt", 1, 0⟩])]⟩ none
      (100 * 86400) 30 false).2

/-- C6: a dry-run sweep deletes no file and removes no directory (the
tree is returned unchanged), and it reports the same `files_found` and
the same potential bytes to free as a real sweep run on the same tree at
the same instant. -/
theorem c6_dry_run_sweep (fs : FS) (log : CleanupLog) (now maxAgeDays : Int) :
    (cleanup_old_files fs log now maxAgeDays true).2.1 = fs ∧
    (cleanup_old_files fs log now maxAgeDays true).1.files_found
      = (cleanup_old_files fs log now maxAgeDays false).1.files_found ∧
    (cleanup_old_files fs log now maxAgeDays true).1.potential_size_to_free
      = (cleanup_old_files fs log now maxAgeDays false).1.potential_size_to_free := by
  exact ⟨rfl, rfl, rfl⟩

/-- C7: with `force = false`, `schedule_cleanup` performs a real cleanup
exactly when the last parsed log timestamp is absent (no log file, empty
log, blank or unparsable last line) or more than 86400 seconds old;
otherwise it performs nothing and reports the seconds remaining until the
next eligible run. -/
theorem c7_schedule_due_rule (fs : FS) (log : CleanupLog) (now maxAgeDays : Int) :
    (get_last_cleanup_time none = none ∧
      get_last_cleanup_time (some ([] : List (Option Int))) = none ∧
      (∀ ls : List (Option Int), get_last_cleanup_time (some (ls ++ [none])) = none)) ∧
    (schedule_cleanup fs log now maxAgeDays false
        = ScheduleResult.performed (cleanup_old_files fs log now maxAgeDays false)
      ↔ (get_last_cleanup_time log = none ∨
          ∃ t, get_last_cleanup_time log = some t ∧ 86400 < now - t)) ∧
    (∀ t, get_last_cleanup_time log = some t → now - t ≤ 86400 →
      schedule_cleanup fs log now maxAgeDays false
        = ScheduleResult.skipped (86400 - (now - t))) := by
  refine ⟨⟨rfl, rfl, ?_⟩, ?_, ?_⟩
  · intro ls
    simp [get_last_cleanup_time, List.getLast?_concat]
  · constructor
    · intro h
      cases hlast : get_last_cleanup_time log with
      | none => exact Or.inl rfl
      | some t =>
        right
        refine ⟨t, rfl, ?_⟩
        by_contra hnot
        have hskip : schedule_cleanup fs log now maxAgeDays false
            = ScheduleResult.skipped (86400 - (now - t)) := by
          simp [schedule_cleanup, hlast, hnot]
        rw [hskip] at h
        exact ScheduleResult.noConfusion h
    · intro h
      rcases h with hnone | ⟨t, ht, hgt⟩
      · simp [schedule_cleanup, hnone]
      · simp [schedule_cleanup, ht, hgt]
  · intro t ht hle
    have hn : ¬(86400 < now - t) := by omega
    simp [schedule_cleanup, ht, hn]

/-- Witness for C7 at a concrete input: a log whose last line parses to
timestamp 0, consulted at `now = 200000` (more than 24h later), performs
the real cleanup. -/
theorem c7_schedule_due_rule_witness :
    schedule_cleanup ⟨[], []⟩ (some [some 0]) 200000 30 false
      = ScheduleResult.performed (cleanup_old_files ⟨[], []⟩ (some [some 0]) 200000 30 false) := by
  exact (c7_schedule_due_rule ⟨[], []⟩ (some [some 0]) 200000 30).2.1.mpr
    (Or.inr ⟨0, rfl, by decide⟩)

/-- C10: every sweep — dry run included — appends exactly one line whose
timestamp field parses, the scheduler reads that timestamp with no
dry-run distinction, and therefore `schedule_cleanup` with `force = false`
performs no real cleanup for the next 86400 seconds after any sweep. -/
theorem c10_dry_run_sweep_postpones_schedule (fs : FS) (log : CleanupLog)
    (now maxAgeDays : Int) (dryRun : Bool) :
    (cleanup_old_files fs log now maxAgeDays dryRun).2.2
      = some ((log.getD []) ++ [some now]) ∧
    get_last_cleanup_time (cleanup_old_files fs log now maxAgeDays dryRun).2.2 = some now ∧
    (∀ fs2 : FS, ∀ maxAge2 now2 : Int, now2 - now ≤ 86400 →
      schedule_cleanup fs2 ((cleanup_old_files fs log now maxAgeDays dryRun).2.2)
          now2 maxAge2 false
        = ScheduleResult.skipped (86400 - (now2 - now))) := by
  have hlog : (cleanup_old_files fs log now maxAgeDays dryRun).2.2
      = some ((log.getD []) ++ [some now]) := rfl
  have hlast : get_last_cleanup_time (cleanup_old_files fs log now maxAgeDays dryRun).2.2
      = some now := by
    rw [hlog]
    simp [get_last_cleanup_time, List.getLast?_concat]
  refine ⟨hlog, hlast, ?_⟩
  intro fs2 maxAge2 now2 hle
  have hn : ¬(86400 < now2 - now) := by omega
  simp [schedule_cleanup, hlast, hn]

/-- Witness for C10 at a concrete input: after a dry-run sweep at time 0,
a scheduled (non-forced) run at time 100 does nothing and reports 86300
seconds until the next eligible run. -/
theorem c10_dry_run_sweep_postpones_schedule_witness :
    schedule_cleanup ⟨[], []⟩ ((cleanup_old_files ⟨[], []⟩ none 0 30 true).2.2) 100 30 false
      = ScheduleResult.skipped 86300 := by
  have h := (c10_dry_run_sweep_postpones_schedule ⟨[], []⟩ none 0 30 true).2.2
    ⟨[], []⟩ 30 100 (by decide)
  simpa using h

theorem dropWhile_idem {α : Type} (p : α → Bool) (l : List α) :
    (l.dropWhile p).dropWhile p = l.dropWhile p := by
  induction l with
  | nil => rfl
  | cons a l ih =>
    by_cases hp : p a = true
    · rw [List.dropWhile_cons_of_pos hp]
      exact ih
    · rw [List.dropWhile_cons_of_neg hp, List.dropWhile_cons_of_neg hp]

theorem dropWhile_replicate_pos {p : Int → Bool} {a : Int} (h : p a = true) (k : Nat) :
    (List.replicate k a).dropWhile p = [] := by
  induction k with
  | zero => rfl
  | succ k ih =>
    rw [List.replicate_succ, List.dropWhile_cons_of_pos h]
    exact ih

theorem dropWhile_replicate_neg {p : Int → Bool} {a : Int} (h : p a = false) (k : Nat) :
    (List.replicate k a).dropWhile p = List.replicate k a := by
  cases k with
  | zero => rfl
  | succ k =>
    rw [List.replicate_succ, List.dropWhile_cons_of_neg (by simp [h])]

theorem minuteTrimmed_eq (rl : RL) (c : String) (now : Int) :
    minuteTrimmed rl c now = (rl.minute_requests c).dropWhile (expired (now - 60)) := by
  unfold minuteTrimmed cleanup_old_requests
  by_cases hcl : now - rl.last_cleanup < 300
  · rw [if_pos hcl]
  · rw [if_neg hcl]
    exact dropWhile_idem _ _

theorem hourTrimmed_eq (rl : RL) (c : String) (now : Int) :
    hourTrimmed rl c now = (rl.hour_requests c).dropWhile (expired (now - 3600)) := by
  unfold hourTrimmed cleanup_old_requests
  by_cases hcl : now - rl.last_cleanup < 300
  · rw [if_pos hcl]
  · rw [if_neg hcl]
    exact dropWhile_idem _ _

theorem overrideMap_same (m : String → List Int) (k : String) (v : List Int) :
    overrideMap m k v k = v := by
  simp [overrideMap]

theorem overrideMap_other (m : String → List Int) (k : String) (v : List Int) (x : String)
    (h : x ≠ k) : overrideMap m k v x = m x := by
  simp [overrideMap, h]

theorem cleanup_fixed_of_recent (rl : RL) (now : Int)
    (h : now - rl.last_cleanup < 300) : cleanup_old_requests rl now = rl := by
  unfold cleanup_old_requests
  rw [if_pos h]

theorem runAll_replicate_state (m h : Nat) (c : String) (t0 : Int) (hmh : m < h) :
    ∀ k : Nat, k ≤ m →
      (runAll (freshRL m h t0) c (List.replicate k t0)).requests_per_minute = m ∧
      (runAll (freshRL m h t0) c (List.replicate k t0)).requests_per_hour = h ∧
      (runAll (freshRL m h t0) c (List.replicate k t0)).last_cleanup = t0 ∧
      (runAll (freshRL m h t0) c (List.replicate k t0)).minute_requests c
        = List.replicate k t0 ∧
      (runAll (freshRL m h t0) c (List.replicate k t0)).hour_requests c
        = List.replicate k t0 := by
  intro k
  induction k with
  | zero => exact fun _ => ⟨rfl, rfl, rfl, rfl, rfl⟩
  | succ k ih =>
    intro hk
    obtain ⟨h1, h2, h3, h4, h5⟩ := ih (by omega)
    have hstep : runAll (freshRL m h t0) c (List.replicate (k + 1) t0)
        = (is_allowed (runAll (freshRL m h t0) c (List.replicate k t0)) c t0).2 := by
      rw [List.replicate_succ']
      unfold runAll
      rw [List.foldl_append]
      rfl
    have hclean : cleanup_old_requests (runAll (freshRL m h t0) c (List.replicate k t0)) t0
        = runAll (freshRL m h t0) c (List.replicate k t0) :=
      cleanup_fixed_of_recent _ _ (by rw [h3]; omega)
    have hmt : minuteTrimmed (runAll (freshRL m h t0) c (List.replicate k t0)) c t0
        = List.replicate k t0 := by
      unfold minuteTrimmed
      rw [hclean, h4]
      exact dropWhile_replicate_neg (by unfold expired; rw [decide_eq_false_iff_not]; omega) k
    have hht : hourTrimmed (runAll (freshRL m h t0) c (List.replicate k t0)) c t0
        = List.replicate k t0 := by
      unfold hourTrimmed
      rw [hclean, h5]
      exact dropWhile_replicate_neg (by unfold expired; rw [decide_eq_false_iff_not]; omega) k
    have hc1 : ¬((runAll (freshRL m h t0) c (List.replicate k t0)).requests_per_minute
        ≤ (minuteTrimmed (runAll (freshRL m h t0) c (List.replicate k t0)) c t0).length) := by
      rw [h1, hmt, List.length_replicate]
      omega
    have hc2 : ¬((runAll (freshRL m h t0) c (List.replicate k t0)).requests_per_hour
        ≤ (hourTrimmed (runAll (freshRL m h t0) c (List.replicate k t0)) c t0).length) := by
      rw [h2, hht, List.length_replicate]
      omega
    have hres : (is_allowed (runAll (freshRL m h t0) c (List.replicate k t0)) c t0).2
        = afterAdmit (runAll (freshRL m h t0) c (List.replicate k t0)) c t0 := by
      unfold is_allowed
      rw [if_neg hc1, if_neg hc2]
    rw [hstep, hres]
    refine ⟨?_, ?_, ?_, ?_, ?_⟩
    · simp only [afterAdmit, afterHourTrim, afterMinuteTrim, hclean]
      exact h1
    · simp only [afterAdmit, afterHourTrim, afterMinuteTrim, hclean]
      exact h2
    · simp only [afterAdmit, afterHourTrim, afterMinuteTrim, hclean]
      exact h3
    · show overrideMap (afterHourTrim (runAll (freshRL m h t0) c (List.replicate k t0)) c t0).minute_requests
          c (minuteTrimmed (runAll (freshRL m h t0) c (List.replicate k t0)) c t0 ++ [t0]) c
        = List.replicate (k + 1) t0
      rw [overrideMap_same, hmt, ← List.replicate_succ']
    · show overrideMap (afterHourTrim (runAll (freshRL m h t0) c (List.replicate k t0)) c t0).hour_requests
          c (hourTrimmed (runAll (freshRL m h t0) c (List.replicate k t0)) c t0 ++ [t0]) c
        = List.replicate (k + 1) t0
      rw [overrideMap_same, hht, ← List.replicate_succ']

/-- C4: the minute window is checked first and its reason is the one
reported, even when the hour window is also over its limit (first
conjunct: whenever the trimmed minute window is at or above the limit,
the call is denied with the per-minute reason, with no hypothesis on the
hour window).  Scenario (remaining conjuncts): a fingerprint that issued
exactly `limit` requests in a burst has the next request inside the 60s
window denied with the per-minute reason, and the request issued 61
seconds after the first is admitted. -/
theorem c4_minute_limit_checked_first :
    (∀ rl : RL, ∀ c : String, ∀ now : Int,
      rl.requests_per_minute
          ≤ ((rl.minute_requests c).dropWhile (expired (now - 60))).length →
      (is_allowed rl c now).1 = (false, some "Too many requests per minute")) ∧
    (∀ m h : Nat, ∀ c : String, ∀ t0 tq : Int, 1 ≤ m → m < h → t0 ≤ tq → tq ≤ t0 + 60 →
      (is_allowed (runAll (freshRL m h t0) c (List.replicate m t0)) c tq).1
        = (false, some "Too many requests per minute")) ∧
    (∀ m h : Nat, ∀ c : String, ∀ t0 : Int, 1 ≤ m → m < h →
      (is_allowed (runAll (freshRL m h t0) c (List.replicate m t0)) c (t0 + 61)).1
        = (true, none)) := by
  refine ⟨?_, ?_, ?_⟩
  · intro rl c now hge
    unfold is_allowed
    rw [if_pos (by rw [minuteTrimmed_eq]; exact hge)]
  · intro m h c t0 tq hm1 hmh ht1 ht2
    obtain ⟨h1, h2, h3, h4, h5⟩ := runAll_replicate_state m h c t0 hmh m le_rfl
    have hclean : cleanup_old_requests (runAll (freshRL m h t0) c (List.replicate m t0)) tq
        = runAll (freshRL m h t0) c (List.replicate m t0) :=
      cleanup_fixed_of_recent _ _ (by rw [h3]; omega)
    have hmt : minuteTrimmed (runAll (freshRL m h t0) c (List.replicate m t0)) c tq
        = List.replicate m t0 := by
      unfold minuteTrimmed
      rw [hclean, h4]
      exact dropWhile_replicate_neg (by unfold expired; rw [decide_eq_false_iff_not]; omega) m
    unfold is_allowed
    rw [if_pos (by rw [h1, hmt, List.length_replicate])]
  · intro m h c t0 hm1 hmh
    obtain ⟨h1, h2, h3, h4, h5⟩ := runAll_replicate_state m h c t0 hmh m le_rfl
    have hclean : cleanup_old_requests (runAll (freshRL m h t0) c (List.replicate m t0)) (t0 + 61)
        = runAll (freshRL m h t0) c (List.replicate m t0) :=
      cleanup_fixed_of_recent _ _ (by rw [h3]; omega)
    have hmt : minuteTrimmed (runAll (freshRL m h t0) c (List.replicate m t0)) c (t0 + 61)
        = [] := by
      unfold minuteTrimmed
      rw [hclean, h4]
      exact dropWhile_replicate_pos (by unfold expired; rw [decide_eq_true_eq]; omega) m
    have hht : hourTrimmed (runAll (freshRL m h t0) c (List.replicate m t0)) c (t0 + 61)
        = List.replicate m t0 := by
      unfold hourTrimmed
      rw [hclean, h5]
      exact dropWhile_replicate_neg (by unfold expired; rw [decide_eq_false_iff_not]; omega) m
    unfold is_allowed
    rw [if_neg (by rw [h1, hmt]; intro hcon; rw [List.length_nil] at hcon; omega),
      if_neg (by rw [h2, hht, List.length_replicate]; omega)]

/-- Witness for C4 at concrete inputs: limits 10/minute and 100/hour, a
burst of 10 requests at time 0; the 11th request at time 30 is denied
with the per-minute reason, the request at time 61 is admitted, and a
zero-minute-limit state is denied with the per-minute reason no matter
what the hour window holds. -/
theorem c4_minute_limit_checked_first_witness :
    (is_allowed (runAll (freshRL 10 100 0) "c" (List.replicate 10 0)) "c" 30).1
        = (false, some "Too many requests per minute") ∧
    (is_allowed (runAll (freshRL 10 100 0) "c" (List.replicate 10 0)) "c" 61).1
        = (true, none) ∧
    (is_allowed (freshRL 0 5 0) "c" 7).1 = (false, some "Too many requests per minute") := by
  refine ⟨?_, ?_, ?_⟩
  · exact c4_minute_limit_checked_first.2.1 10 100 "c" 0 30
      (by decide) (by decide) (by decide) (by decide)
  · exact c4_minute_limit_checked_first.2.2 10 100 "c" 0 (by decide) (by decide)
  · exact c4_minute_limit_checked_first.1 (freshRL 0 5 0) "c" 7 (by decide)

theorem afterMinuteTrim_minute_proj (rl : RL) (c : String) (now : Int) :
    (afterMinuteTrim rl c now).minute_requests
      = overrideMap (cleanup_old_requests rl now).minute_requests c (minuteTrimmed rl c now) := rfl

theorem afterMinuteTrim_hour_proj (rl : RL) (c : String) (now : Int) :
    (afterMinuteTrim rl c now).hour_requests
      = (cleanup_old_requests rl now).hour_requests := rfl

theorem afterHourTrim_minute_proj (rl : RL) (c : String) (now : Int) :
    (afterHourTrim rl c now).minute_requests
      = (afterMinuteTrim rl c now).minute_requests := rfl

theorem afterHourTrim_hour_proj (rl : RL) (c : String) (now : Int) :
    (afterHourTrim rl c now).hour_requests
      = overrideMap (afterMinuteTrim rl c now).hour_requests c (hourTrimmed rl c now) := rfl

theorem afterMinuteTrim_minute (rl : RL) (c : String) (now : Int) (x : String) :
    (afterMinuteTrim rl c now).minute_requests x
        = (rl.minute_requests x).dropWhile (expired (now - 60)) ∨
    (afterMinuteTrim rl c now).minute_requests x = rl.minute_requests x := by
  rw [afterMinuteTrim_minute_proj]
  by_cases hx : x = c
  · subst hx
    left
    rw [overrideMap_same, minuteTrimmed_eq]
  · rw [overrideMap_other _ _ _ _ hx]
    by_cases hcl : now - rl.last_cleanup < 300
    · right
      rw [cleanup_fixed_of_recent rl now hcl]
    · left
      unfold cleanup_old_requests
      rw [if_neg hcl]

theorem afterMinuteTrim_hour (rl : RL) (c : String) (now : Int) (x : String) :
    (afterMinuteTrim rl c now).hour_requests x
        = (rl.hour_requests x).dropWhile (expired (now - 3600)) ∨
    (afterMinuteTrim rl c now).hour_requests x = rl.hour_requests x := by
  rw [afterMinuteTrim_hour_proj]
  by_cases hcl : now - rl.last_cleanup < 300
  · right
    rw [cleanup_fixed_of_recent rl now hcl]
  · left
    unfold cleanup_old_requests
    rw [if_neg hcl]

theorem afterHourTrim_minute (rl : RL) (c : String) (now : Int) (x : String) :
    (afterHourTrim rl c now).minute_requests x
        = (rl.minute_requests x).dropWhile (expired (now - 60)) ∨
    (afterHourTrim rl c now).minute_requests x = rl.minute_requests x := by
  rw [afterHourTrim_minute_proj]
  exact afterMinuteTrim_minute rl c now x

theorem afterHourTrim_hour (rl : RL) (c : String) (now : Int) (x : String) :
    (afterHourTrim rl c now).hour_requests x
        = (rl.hour_requests x).dropWhile (expired (now - 3600)) ∨
    (afterHourTrim rl c now).hour_requests x = rl.hour_requests x := by
  rw [afterHourTrim_hour_proj]
  by_cases hx : x = c
  · subst hx
    left
    rw [overrideMap_same, hourTrimmed_eq]
  · rw [overrideMap_other _ _ _ _ hx]
    exact afterMinuteTrim_hour rl c now x

/-- C9: a denied `is_allowed` call appends no timestamp to any window of
any fingerprint — every window is either exactly its own expired-prefix
trim or untouched — so in particular no window grows, and repeating a
denied request cannot push the fingerprint further over either limit. -/
theorem c9_denied_call_consumes_no_quota (rl : RL) (c : String) (now : Int)
    (hden : (is_allowed rl c now).1.1 = false) :
    ∀ x : String,
      ((is_allowed rl c now).2.minute_requests x
          = (rl.minute_requests x).dropWhile (expired (now - 60)) ∨
        (is_allowed rl c now).2.minute_requests x = rl.minute_requests x) ∧
      ((is_allowed rl c now).2.hour_requests x
          = (rl.hour_requests x).dropWhile (expired (now - 3600)) ∨
        (is_allowed rl c now).2.hour_requests x = rl.hour_requests x) ∧
      ((is_allowed rl c now).2.minute_requests x).length
        ≤ (rl.minute_requests x).length ∧
      ((is_allowed rl c now).2.hour_requests x).length
        ≤ (rl.hour_requests x).length := by
  have hstate : (is_allowed rl c now).2 = afterMinuteTrim rl c now ∨
      (is_allowed rl c now).2 = afterHourTrim rl c now := by
    unfold is_allowed
    by_cases hc1 : rl.requests_per_minute ≤ (minuteTrimmed rl c now).length
    · left
      rw [if_pos hc1]
    · by_cases hc2 : rl.requests_per_hour ≤ (hourTrimmed rl c now).length
      · right
        rw [if_neg hc1, if_pos hc2]
      · exfalso
        unfold is_allowed at hden
        rw [if_neg hc1, if_neg hc2] at hden
        simp at hden
  intro x
  have hm : (is_allowed rl c now).2.minute_requests x
      = (rl.minute_requests x).dropWhile (expired (now - 60)) ∨
      (is_allowed rl c now).2.minute_requests x = rl.minute_requests x := by
    rcases hstate with hs | hs
    · rw [hs]
      exact afterMinuteTrim_minute rl c now x
    · rw [hs]
      exact afterHourTrim_minute rl c now x
  have hh : (is_allowed rl c now).2.hour_requests x
      = (rl.hour_requests x).dropWhile (expired (now - 3600)) ∨
      (is_allowed rl c now).2.hour_requests x = rl.hour_requests x := by
    rcases hstate with hs | hs
    · rw [hs]
      exact afterMinuteTrim_hour rl c now x
    · rw [hs]
      exact afterHourTrim_hour rl c now x
  refine ⟨hm, hh, ?_, ?_⟩
  · rcases hm with he | he
    · rw [he]
      exact (List.dropWhile_sublist _).length_le
    · rw [he]
  · rcases hh with he | he
    · rw [he]
      exact (List.dropWhile_sublist _).length_le
    · rw [he]

/-- Witness for C9 at a concrete input: a zero-limit fresh limiter denies
the call, and the windows of an arbitrary other fingerprint are
untouched (both cases of the theorem's disjunction hold on empty
windows). -/
theorem c9_denied_call_consumes_no_quota_witness :
    ((is_allowed (freshRL 0 0 0) "c" 7).2.minute_requests "z"
        = ((freshRL 0 0 0).minute_requests "z").dropWhile (expired (7 - 60)) ∨
      (is_allowed (freshRL 0 0 0) "c" 7).2.minute_requests "z"
        = (freshRL 0 0 0).minute_requests "z") ∧
    ((is_allowed (freshRL 0 0 0) "c" 7).2.hour_requests "z"
        = ((freshRL 0 0 0).hour_requests "z").dropWhile (expired (7 - 3600)) ∨
      (is_allowed (freshRL 0 0 0) "c" 7).2.hour_requests "z"
        = (freshRL 0 0 0).hour_requests "z") ∧
    ((is_allowed (freshRL 0 0 0) "c" 7).2.minute_requests "z").length
      ≤ ((freshRL 0 0 0).minute_requests "z").length ∧
    ((is_allowed (freshRL 0 0 0) "c" 7).2.hour_requests "z").length
      ≤ ((freshRL 0 0 0).hour_requests "z").length := by
  exact c9_denied_call_consumes_no_quota (freshRL 0 0 0) "c" 7 (by rfl) "z"
